import Mathlib

set_option autoImplicit false

/-!
A shallow embedding of the todoapi service (FastAPI + SQLAlchemy) and proofs
about its authentication, OTP and task-ownership behaviour.

Tables are lists of rows; a route handler is a function from its inputs and
the database state to a `(result, new state)` pair.  `HTTPException` carries
the status code and detail string raised by the handler.  Sources of
nondeterminism in the Python code (the random 6-digit OTP, `datetime.utcnow()`,
bcrypt hashing, auto-increment ids, and whether the insert hits an
`IntegrityError`) are passed in as explicit parameters, so every handler is a
pure function of its inputs.
-/

namespace TodoApi

/-- Row of the `users` table (class `User`, src/models/user.py). -/
structure User where
  id : Nat
  email : String
  username : String
  hashed_password : String
  is_active : Bool
  created_at : Nat
  updated_at : Option Nat
deriving DecidableEq, Repr

/-- Row of the `todos` table (class `Todo`, src/models/todo.py). -/
structure Todo where
  id : Nat
  title : String
  description : Option String
  completed : Bool
  created_at : Nat
  updated_at : Option Nat
  user_id : Nat
deriving DecidableEq, Repr

/-- Row of the `otps` table (class `OTPModel`, src/models/user.py). -/
structure OTPModel where
  id : Nat
  email : String
  otp : String
  created_at : Nat
  expires_at : Nat
  is_used : Bool
deriving DecidableEq, Repr

/-- The relational store: the three tables implied by the models. -/
structure DB where
  users : List User
  todos : List Todo
  otps : List OTPModel
deriving DecidableEq, Repr

/-- FastAPI `HTTPException`: a status code and a detail message. -/
structure HTTPException where
  status_code : Nat
  detail : String
deriving DecidableEq, Repr

/-- Mutate in place the first row returned by `.filter(...).first()`:
SQLAlchemy updates that row and `commit` persists it, leaving every other
row untouched. -/
def updateFirst {α : Type} (p : α → Bool) (f : α → α) : List α → List α
  | [] => []
  | x :: xs => if p x then f x :: xs else x :: updateFirst p f xs

/-- Embedding of `db.delete` on the row returned by `.filter(...).first()`. -/
def removeFirst {α : Type} (p : α → Bool) : List α → List α
  | [] => []
  | x :: xs => if p x then xs else x :: removeFirst p xs

/-- Outcome of `jwt.decode` plus reading the `sub` claim inside
`get_current_user` (src/utils/auth.py): the decode can raise `JWTError`
(bad signature, expired, malformed), the claim can be absent, or it yields
the subject email. -/
inductive TokenVerify where
  | invalid
  | missingSub
  | subject (email : String)
deriving DecidableEq, Repr

/-- The `credentials_exception` built at the top of `get_current_user`. -/
def credentials_exception : HTTPException :=
  ⟨401, "Could not validate credentials"⟩

/-- Handler `get_current_user` (src/utils/auth.py, lines 55-103): decode the token,
look the subject email up in the `users` table, reject inactive users. -/
def get_current_user (tv : TokenVerify) (db : DB) : Except HTTPException User :=
  match tv with
  | .invalid => .error credentials_exception
  | .missingSub => .error credentials_exception
  | .subject email =>
    match db.users.find? (fun u => u.email == email) with
    | none => .error credentials_exception
    | some user =>
      if !user.is_active then
        .error ⟨400, "Inactive user"⟩
      else
        .ok user

/-- A protected route: FastAPI resolves the `Depends(get_current_user)`
parameter first; if it raises, the handler body never runs and the
database is untouched. -/
def runProtected {α : Type} (tv : TokenVerify) (db : DB)
    (handler : User → DB → (Except HTTPException α) × DB) :
    (Except HTTPException α) × DB :=
  match get_current_user tv db with
  | .error e => (.error e, db)
  | .ok user => handler user db

/-- Pydantic `TodoCreate` (src/models/todo.py): `completed` defaults to false. -/
structure TodoCreate where
  title : String
  description : Option String
  completed : Bool := false
deriving DecidableEq, Repr

/-- Pydantic `TodoUpdate` (src/models/todo.py): all three fields optional.
The outer `Option` is Pydantic's set/unset distinction used by
`dict(exclude_unset=True)`; for `description` the inner `Option` is the
value itself, which is nullable. -/
structure TodoUpdate where
  title : Option String
  description : Option (Option String)
  completed : Option Bool
deriving DecidableEq, Repr

/-- The row filter shared by `read_todo`, `update_todo`, `delete_todo` and
`toggle_todo_status`: `Todo.id == todo_id, Todo.user_id == current_user.id`. -/
def ownedMatch (todo_id : Nat) (current_user : User) (t : Todo) : Bool :=
  t.id == todo_id && t.user_id == current_user.id

/-- Handler `create_todo` (src/routes/todo_routes.py): insert a row owned by the
caller.  `newId` is the auto-increment primary key, `now` the server clock. -/
def create_todo (todo : TodoCreate) (current_user : User) (newId now : Nat)
    (db : DB) : Todo × DB :=
  let db_todo : Todo :=
    { id := newId, title := todo.title, description := todo.description,
      completed := todo.completed, created_at := now, updated_at := none,
      user_id := current_user.id }
  (db_todo, { db with todos := db.todos ++ [db_todo] })

/-- Handler `read_todos` (src/routes/todo_routes.py): rows owned by the caller, the
optional `completed` filter, then `offset(skip).limit(limit)`. -/
def read_todos (skip limit : Nat) (completed : Option Bool)
    (current_user : User) (db : DB) : List Todo × DB :=
  let query := db.todos.filter (fun t => t.user_id == current_user.id)
  let query := match completed with
    | none => query
    | some c => query.filter (fun t => t.completed == c)
  ((query.drop skip).take limit, db)

/-- Handler `read_todo` (src/routes/todo_routes.py): 404 when no row matches both
the id and the caller's ownership. -/
def read_todo (todo_id : Nat) (current_user : User) (db : DB) :
    (Except HTTPException Todo) × DB :=
  match db.todos.find? (ownedMatch todo_id current_user) with
  | none => (.error ⟨404, "Todo not found"⟩, db)
  | some t => (.ok t, db)

/-- The `setattr` loop of `update_todo`: overwrite exactly the attributes
present in `todo_update.dict(exclude_unset=True)`. -/
def applyTodoUpdate (u : TodoUpdate) (t : Todo) : Todo :=
  { t with
    title := u.title.getD t.title,
    description := u.description.getD t.description,
    completed := u.completed.getD t.completed }

/-- Handler `update_todo` (src/routes/todo_routes.py): find the caller's row, apply
the partial update, commit (the `updated_at` column has `onupdate=func.now()`). -/
def update_todo (todo_id : Nat) (todo_update : TodoUpdate)
    (current_user : User) (now : Nat) (db : DB) :
    (Except HTTPException Todo) × DB :=
  let f := fun t => { applyTodoUpdate todo_update t with updated_at := some now }
  match db.todos.find? (ownedMatch todo_id current_user) with
  | none => (.error ⟨404, "Todo not found"⟩, db)
  | some db_todo =>
    (.ok (f db_todo),
     { db with todos := updateFirst (ownedMatch todo_id current_user) f db.todos })

/-- Handler `delete_todo` (src/routes/todo_routes.py). -/
def delete_todo (todo_id : Nat) (current_user : User) (db : DB) :
    (Except HTTPException Unit) × DB :=
  match db.todos.find? (ownedMatch todo_id current_user) with
  | none => (.error ⟨404, "Todo not found"⟩, db)
  | some _ =>
    (.ok (), { db with todos := removeFirst (ownedMatch todo_id current_user) db.todos })

/-- Handler `toggle_todo_status` (src/routes/todo_routes.py): flip `completed` on
the caller's row and commit. -/
def toggle_todo_status (todo_id : Nat) (current_user : User) (now : Nat)
    (db : DB) : (Except HTTPException Todo) × DB :=
  let f := fun (t : Todo) => { t with completed := !t.completed, updated_at := some now }
  match db.todos.find? (ownedMatch todo_id current_user) with
  | none => (.error ⟨404, "Todo not found"⟩, db)
  | some db_todo =>
    (.ok (f db_todo),
     { db with todos := updateFirst (ownedMatch todo_id current_user) f db.todos })

/-- Pydantic `UserCreate` (src/models/user.py). -/
structure UserCreate where
  email : String
  username : String
  password : String
deriving DecidableEq, Repr

/-- Pydantic `UserResponse` (src/models/user.py): the shape of the
`response_model` of `/users/register` and `/users/me`.  It has no password
field, so the hash is never part of a response. -/
structure UserResponse where
  id : Nat
  email : String
  username : String
  is_active : Bool
  created_at : Nat
deriving DecidableEq, Repr

/-- FastAPI serialising a `User` row through `response_model=UserResponse`. -/
def toUserResponse (u : User) : UserResponse :=
  ⟨u.id, u.email, u.username, u.is_active, u.created_at⟩

/-- Handler `register_user` (src/routes/user_routes.py, lines 30-67): reject on a
taken email, then on a taken username, else hash and insert.  `insertOk`
is false when the insert raises `IntegrityError` (e.g. a uniqueness race
lost after the pre-checks); `hashFn` is `get_password_hash`. -/
def register_user (user : UserCreate) (hashFn : String → String)
    (newId now : Nat) (insertOk : Bool) (db : DB) :
    (Except HTTPException UserResponse) × DB :=
  match db.users.find? (fun u => u.email == user.email) with
  | some _ => (.error ⟨400, "Email already registered"⟩, db)
  | none =>
    match db.users.find? (fun u => u.username == user.username) with
    | some _ => (.error ⟨400, "Username already taken"⟩, db)
    | none =>
      let db_user : User :=
        { id := newId, email := user.email, username := user.username,
          hashed_password := hashFn user.password, is_active := true,
          created_at := now, updated_at := none }
      if insertOk then
        (.ok (toUserResponse db_user), { db with users := db.users ++ [db_user] })
      else
        (.error ⟨400, "Registration failed due to database error"⟩, db)

/-- The anti-enumeration message returned by `forgot_password` on both of
its paths. -/
def forgotMessage : String := "If your email is registered, you will receive an OTP"

/-- Handler `forgot_password` (src/routes/user_routes.py, lines 96-135): if the
email resolves to a user, delete every OTP row for that email and insert a
fresh one expiring 15 minutes from `now`; either way return the same 200
message.  `newOtp` is the random 6-digit code, `newId` the auto-increment
key.  The email dispatch is a fire-and-forget background task with no
effect on the store, so it does not appear in the state. -/
def forgot_password (email newOtp : String) (newId now : Nat) (db : DB) :
    String × DB :=
  match db.users.find? (fun u => u.email == email) with
  | none => (forgotMessage, db)
  | some _ =>
    let db_otp : OTPModel :=
      { id := newId, email := email, otp := newOtp,
        created_at := now, expires_at := now + 15 * 60, is_used := false }
    (forgotMessage,
     { db with otps := db.otps.filter (fun r => !(r.email == email)) ++ [db_otp] })

/-- The OTP row filter shared by `verify_otp` and `reset_password`:
matching email and code, `is_used == False`, `expires_at > utcnow()`. -/
def otpMatch (email otp : String) (now : Nat) (r : OTPModel) : Bool :=
  r.email == email && r.otp == otp && r.is_used == false && now < r.expires_at

/-- Handler `verify_otp` (src/routes/user_routes.py, lines 137-154): pure check; the
handler only queries and never commits, so the state component is returned
unchanged. -/
def verify_otp (email otp : String) (now : Nat) (db : DB) :
    (Except HTTPException String) × DB :=
  (match db.otps.find? (otpMatch email otp now) with
   | none => .error ⟨400, "Invalid or expired OTP"⟩
   | some _ => .ok "OTP verified successfully",
   db)

/-- Handler `reset_password` (src/routes/user_routes.py, lines 156-190): find a
valid OTP row, find the user, then set the new hash and `is_used = True`
and commit both in the same `db.commit()` (the `users.updated_at` column
has `onupdate=func.now()`).  Both exception paths raise before any
mutation. -/
def reset_password (email otp new_password : String)
    (hashFn : String → String) (now : Nat) (db : DB) :
    (Except HTTPException String) × DB :=
  match db.otps.find? (otpMatch email otp now) with
  | none => (.error ⟨400, "Invalid or expired OTP"⟩, db)
  | some _ =>
    match db.users.find? (fun u => u.email == email) with
    | none => (.error ⟨404, "User not found"⟩, db)
    | some _ =>
      (.ok "Password reset successfully",
       { db with
         users := updateFirst (fun u => u.email == email)
           (fun u => { u with hashed_password := hashFn new_password,
                              updated_at := some now }) db.users,
         otps := updateFirst (otpMatch email otp now)
           (fun r => { r with is_used := true }) db.otps })

/-- Iterate `verify_otp` a given number of times, each call fed the state left by the
previous one. -/
def verifyN (email otp : String) (now : Nat) (db : DB) : Nat → DB
  | 0 => db
  | n + 1 => verifyN email otp now (verify_otp email otp now db).2 n

/-! ### Lemmas about `updateFirst` and `find?` -/

theorem updateFirst_decomp {α : Type} (p : α → Bool) (f : α → α) (l : List α) (a : α)
    (h : l.find? p = some a) :
    ∃ l₁ l₂, l = l₁ ++ a :: l₂ ∧ updateFirst p f l = l₁ ++ f a :: l₂ ∧
      ∀ x ∈ l₁, p x = false := by
  induction l with
  | nil => simp at h
  | cons x xs ih =>
    by_cases hx : p x = true
    · rw [List.find?_cons_of_pos _ hx] at h
      injection h with h
      subst h
      exact ⟨[], xs, rfl, by simp [updateFirst, hx], by simp⟩
    · rw [List.find?_cons_of_neg _ hx] at h
      obtain ⟨l₁, l₂, he, hu, hp⟩ := ih h
      refine ⟨x :: l₁, l₂, by simp [he], ?_, ?_⟩
      · simp [updateFirst, hx, hu]
      · intro y hy
        rcases List.mem_cons.mp hy with rfl | hy
        · exact Bool.eq_false_iff.mpr hx
        · exact hp y hy

theorem find?_updateFirst {α : Type} (p : α → Bool) (f : α → α)
    (hf : ∀ a, p a = true → p (f a) = true) (l : List α) :
    (updateFirst p f l).find? p = (l.find? p).map f := by
  induction l with
  | nil => simp [updateFirst]
  | cons x xs ih =>
    by_cases hx : p x = true
    · rw [updateFirst, if_pos hx, List.find?_cons_of_pos _ hx,
          List.find?_cons_of_pos _ (hf x hx)]
      rfl
    · rw [updateFirst, if_neg hx, List.find?_cons_of_neg _ hx,
          List.find?_cons_of_neg _ hx, ih]

theorem find?_updateFirst_none {α : Type} (p q : α → Bool) (f : α → α)
    (l : List α) (a : α)
    (hfind : l.find? p = some a) (hcount : l.countP p ≤ 1)
    (hqp : ∀ b, q b = true → p b = true) (hqf : ∀ b, q (f b) = false) :
    (updateFirst p f l).find? q = none := by
  induction l with
  | nil => simp at hfind
  | cons x xs ih =>
    by_cases hx : p x = true
    · rw [updateFirst, if_pos hx]
      rw [List.countP_cons, if_pos hx] at hcount
      have hzero : xs.countP p = 0 := by omega
      have hnone : ∀ b ∈ xs, ¬ q b = true := by
        intro b hb hq
        have := List.countP_eq_zero.mp hzero b hb
        exact this (hqp b hq)
      rw [List.find?_cons_of_neg _ (by simp [hqf x])]
      exact List.find?_eq_none.mpr hnone
    · rw [updateFirst, if_neg hx]
      rw [List.find?_cons_of_neg _ hx] at hfind
      rw [List.countP_cons, if_neg hx] at hcount
      have hqx : ¬ q x = true := fun hq => hx (hqp x hq)
      rw [List.find?_cons_of_neg _ hqx]
      exact ih hfind (by omega)

theorem map_updateFirst {α β : Type} (p : α → Bool) (f : α → α) (g : α → β)
    (hg : ∀ a, g (f a) = g a) (l : List α) :
    (updateFirst p f l).map g = l.map g := by
  induction l with
  | nil => rfl
  | cons x xs ih =>
    by_cases hx : p x = true
    · simp [updateFirst, hx, hg]
    · simp [updateFirst, hx, ih]

theorem mem_updateFirst {α : Type} {p : α → Bool} {f : α → α} {l : List α} {b : α}
    (hb : b ∈ updateFirst p f l) :
    b ∈ l ∨ ∃ a, l.find? p = some a ∧ b = f a := by
  induction l with
  | nil => simp [updateFirst] at hb
  | cons x xs ih =>
    by_cases hx : p x = true
    · rw [updateFirst, if_pos hx] at hb
      rcases List.mem_cons.mp hb with rfl | h
      · exact Or.inr ⟨x, List.find?_cons_of_pos _ hx, rfl⟩
      · exact Or.inl (List.mem_cons_of_mem _ h)
    · rw [updateFirst, if_neg hx] at hb
      rcases List.mem_cons.mp hb with rfl | h
      · exact Or.inl (List.mem_cons_self b xs)
      · rcases ih h with h | ⟨a, ha, hba⟩
        · exact Or.inl (List.mem_cons_of_mem _ h)
        · exact Or.inr ⟨a, by rw [List.find?_cons_of_neg _ hx]; exact ha, hba⟩

theorem countP_le_countP {α : Type} (p q : α → Bool) (l : List α)
    (h : ∀ a ∈ l, p a = true → q a = true) : l.countP p ≤ l.countP q := by
  induction l with
  | nil => simp
  | cons x xs ih =>
    rw [List.countP_cons, List.countP_cons]
    have hxs := ih (fun a ha => h a (List.mem_cons_of_mem _ ha))
    by_cases hx : p x = true
    · rw [if_pos hx, if_pos (h x (List.mem_cons_self x xs) hx)]
      omega
    · rw [if_neg hx]
      omega

/-! ### Concrete fixtures used by witnesses and counterexamples -/

/-- An enabled account. -/
def aliceUser : User :=
  { id := 1, email := "a@x.com", username := "alice", hashed_password := "h1",
    is_active := true, created_at := 0, updated_at := none }

/-- A second enabled account, distinct from `aliceUser`. -/
def bobUser : User :=
  { id := 2, email := "b@x.com", username := "bob", hashed_password := "h2",
    is_active := true, created_at := 0, updated_at := none }

/-- A disabled account. -/
def inactiveUser : User :=
  { id := 3, email := "c@x.com", username := "carol", hashed_password := "h3",
    is_active := false, created_at := 0, updated_at := none }

/-- A task owned by `aliceUser`. -/
def milkTodo : Todo :=
  { id := 1, title := "buy milk", description := none, completed := false,
    created_at := 0, updated_at := none, user_id := 1 }

/-- State with one disabled account. -/
def dbInactive : DB := { users := [inactiveUser], todos := [], otps := [] }

/-- State with two enabled accounts and one task owned by `aliceUser`. -/
def dbTwoUsers : DB := { users := [aliceUser, bobUser], todos := [milkTodo], otps := [] }

/-! ### C1 — rejection of disabled accounts -/

/-- C1 (counterexample): the claim says a verified token whose subject
resolves to a user with `active = false` is rejected with HTTP 403
Forbidden.  On a concrete state holding exactly such a user,
`get_current_user` raises status 400 ("Inactive user"), not 403. -/
theorem C1_counterexample :
    get_current_user (.subject "c@x.com") dbInactive =
      .error ⟨400, "Inactive user"⟩ ∧ (400 : Nat) ≠ 403 := by
  exact ⟨rfl, by decide⟩

/-- C1 (amended): for every request bearing a token that verifies and whose
subject email resolves to a user with `active = false`, the middleware
rejects the request with HTTP 400 and detail "Inactive user" — an outcome
distinct from the 401 `credentials_exception` used for unauthenticated
failures — and the handler is never reached: for every handler the
protected route returns that error and the untouched state. -/
theorem C1_inactive_user_rejected {α : Type} (email : String) (db : DB)
    (u : User) (handler : User → DB → (Except HTTPException α) × DB)
    (hfind : db.users.find? (fun x => x.email == email) = some u)
    (hinactive : u.is_active = false) :
    runProtected (.subject email) db handler =
      (.error ⟨400, "Inactive user"⟩, db) ∧
    (⟨400, "Inactive user"⟩ : HTTPException) ≠ credentials_exception := by
  have hauth : get_current_user (.subject email) db =
      .error ⟨400, "Inactive user"⟩ := by
    simp [get_current_user, hfind, hinactive]
  exact ⟨by simp [runProtected, hauth], by decide⟩

/-- C1 (witness): the amended theorem at a concrete disabled account and a
concrete handler. -/
theorem C1_inactive_user_rejected_witness :
    runProtected (.subject "c@x.com") dbInactive
        (fun (u : User) (db : DB) => ((Except.ok u.id : Except HTTPException Nat), db)) =
      (.error ⟨400, "Inactive user"⟩, dbInactive) ∧
    (⟨400, "Inactive user"⟩ : HTTPException) ≠ credentials_exception :=
  C1_inactive_user_rejected "c@x.com" dbInactive inactiveUser
    (fun (u : User) (db : DB) => ((Except.ok u.id : Except HTTPException Nat), db))
    (by decide) (by decide)

/-! ### C9 — toggle is an involution on `completed` -/

/-- C9: for a task owned by the caller, one toggle returns the record with
`completed` negated (and re-stamps `updated_at`), and a second toggle
returns `completed` to its original value. -/
theorem C9_toggle_involution (todo_id : Nat) (current_user : User)
    (now now₂ : Nat) (db : DB) (t : Todo)
    (hfound : db.todos.find? (ownedMatch todo_id current_user) = some t) :
    (toggle_todo_status todo_id current_user now db).1 =
      .ok { t with completed := !t.completed, updated_at := some now } ∧
    (toggle_todo_status todo_id current_user now₂
        (toggle_todo_status todo_id current_user now db).2).1 =
      .ok { t with completed := t.completed, updated_at := some now₂ } := by
  have hmono : ∀ a : Todo, ownedMatch todo_id current_user a = true →
      ownedMatch todo_id current_user
        { a with completed := !a.completed, updated_at := some now } = true := by
    intro a ha
    simpa [ownedMatch] using ha
  have hstate : (toggle_todo_status todo_id current_user now db).2.todos =
      updateFirst (ownedMatch todo_id current_user)
        (fun a => { a with completed := !a.completed, updated_at := some now })
        db.todos := by
    simp [toggle_todo_status, hfound]
  have hfind2 : (toggle_todo_status todo_id current_user now db).2.todos.find?
      (ownedMatch todo_id current_user) =
      some { t with completed := !t.completed, updated_at := some now } := by
    rw [hstate, find?_updateFirst _ _ hmono, hfound]
    rfl
  refine ⟨by simp [toggle_todo_status, hfound], ?_⟩
  generalize hdb₁ : (toggle_todo_status todo_id current_user now db).2 = db₁ at hfind2
  simp [toggle_todo_status, hfind2, Bool.not_not]

/-- C9 (witness): toggling the concrete task twice restores `completed`. -/
theorem C9_toggle_involution_witness :
    (toggle_todo_status 1 aliceUser 5 dbTwoUsers).1 =
      .ok { milkTodo with completed := !milkTodo.completed, updated_at := some 5 } ∧
    (toggle_todo_status 1 aliceUser 6
        (toggle_todo_status 1 aliceUser 5 dbTwoUsers).2).1 =
      .ok { milkTodo with completed := milkTodo.completed, updated_at := some 6 } :=
  C9_toggle_involution 1 aliceUser 5 6 dbTwoUsers milkTodo (by decide)

/-! ### C2 — task ownership isolation -/

/-- C2: for a task `t` owned by `A` and any user `B` with a different id
(ids are the primary key, so distinct users have distinct ids), every
single-task operation called as `B` on `t.id` returns 404 "Todo not found"
— never 403 — and leaves the whole state unchanged, and the list endpoint
called as `B` never includes `t`.  `hkey` is primary-key uniqueness of
`todos.id`. -/
theorem C2_ownership_isolation (A B : User) (t : Todo) (db : DB)
    (ht : t ∈ db.todos) (howner : t.user_id = A.id) (hAB : B.id ≠ A.id)
    (hkey : ∀ t' ∈ db.todos, t'.id = t.id → t' = t) :
    read_todo t.id B db = (.error ⟨404, "Todo not found"⟩, db) ∧
    (∀ u now, update_todo t.id u B now db = (.error ⟨404, "Todo not found"⟩, db)) ∧
    delete_todo t.id B db = (.error ⟨404, "Todo not found"⟩, db) ∧
    (∀ now, toggle_todo_status t.id B now db = (.error ⟨404, "Todo not found"⟩, db)) ∧
    (∀ skip limit completed, t ∉ (read_todos skip limit completed B db).1) := by
  have hnone : db.todos.find? (ownedMatch t.id B) = none := by
    refine List.find?_eq_none.mpr ?_
    intro t' ht' hmatch
    simp [ownedMatch] at hmatch
    obtain ⟨hid, huid⟩ := hmatch
    have := hkey t' ht' hid
    subst this
    rw [howner] at huid
    exact hAB huid.symm
  refine ⟨?_, ?_, ?_, ?_, ?_⟩
  · simp [read_todo, hnone]
  · intro u now
    simp [update_todo, hnone]
  · simp [delete_todo, hnone]
  · intro now
    simp [toggle_todo_status, hnone]
  · intro skip limit completed hmem
    have hquery : t ∈ db.todos.filter (fun x => x.user_id == B.id) := by
      cases completed with
      | none =>
        exact List.mem_of_mem_drop (List.mem_of_mem_take
          (by simpa [read_todos] using hmem))
      | some c =>
        exact List.mem_of_mem_filter (List.mem_of_mem_drop (List.mem_of_mem_take
          (by simpa [read_todos] using hmem)))
    have : t.user_id = B.id := by
      simpa using (List.mem_filter.mp hquery).2
    rw [howner] at this
    exact hAB this.symm

/-- C2 (witness): `bobUser` hitting `aliceUser`'s task gets 404 on the
single-task routes and never sees it in the list. -/
theorem C2_ownership_isolation_witness :
    read_todo milkTodo.id bobUser dbTwoUsers =
      (.error ⟨404, "Todo not found"⟩, dbTwoUsers) ∧
    toggle_todo_status milkTodo.id bobUser 7 dbTwoUsers =
      (.error ⟨404, "Todo not found"⟩, dbTwoUsers) ∧
    milkTodo ∉ (read_todos 0 100 none bobUser dbTwoUsers).1 := by
  have h := C2_ownership_isolation aliceUser bobUser milkTodo dbTwoUsers
    (by decide) (by decide) (by decide) (by decide)
  exact ⟨h.1, h.2.2.2.1 7, h.2.2.2.2 0 100 none⟩

/-! ### C3 — reset-password atomicity -/

/-- C3: `reset_password` persists the password overwrite and the OTP
used-flag as one atomic unit.  Both exception paths of the handler raise
before any mutation, so on any failure the returned state is exactly the
input state (old hash still in effect, OTP still consumable); on success
the single returned state simultaneously carries the user row with the new
hash and the matched OTP row with `is_used = true`, each in place, with
every other row untouched.  In the source both mutations are persisted by
the one `db.commit()` at the end of the handler. -/
theorem C3_reset_atomic (email otp new_password : String)
    (hashFn : String → String) (now : Nat) (db : DB) :
    (∀ e, (reset_password email otp new_password hashFn now db).1 = .error e →
      (reset_password email otp new_password hashFn now db).2 = db) ∧
    (∀ s, (reset_password email otp new_password hashFn now db).1 = .ok s →
      (∃ u₁ u₂ u, db.users = u₁ ++ u :: u₂ ∧
        (reset_password email otp new_password hashFn now db).2.users =
          u₁ ++ { u with hashed_password := hashFn new_password,
                         updated_at := some now } :: u₂) ∧
      (∃ r₁ r₂ r, db.otps = r₁ ++ r :: r₂ ∧ r.is_used = false ∧
        (reset_password email otp new_password hashFn now db).2.otps =
          r₁ ++ { r with is_used := true } :: r₂)) := by
  cases hotp : db.otps.find? (otpMatch email otp now) with
  | none =>
    constructor
    · intro e _
      simp [reset_password, hotp]
    · intro s hs
      simp [reset_password, hotp] at hs
  | some r =>
    cases huser : db.users.find? (fun u => u.email == email) with
    | none =>
      constructor
      · intro e _
        simp [reset_password, hotp, huser]
      · intro s hs
        simp [reset_password, hotp, huser] at hs
    | some u =>
      constructor
      · intro e he
        simp [reset_password, hotp, huser] at he
      · intro s _
        obtain ⟨u₁, u₂, hue, huu, -⟩ :=
          updateFirst_decomp (fun x => x.email == email)
            (fun x => { x with hashed_password := hashFn new_password,
                               updated_at := some now }) db.users u huser
        obtain ⟨r₁, r₂, hre, hru, -⟩ :=
          updateFirst_decomp (otpMatch email otp now)
            (fun x => { x with is_used := true }) db.otps r hotp
        have hused : r.is_used = false := by
          have hr := List.find?_some hotp
          simp [otpMatch] at hr
          obtain ⟨⟨-, hC⟩, -⟩ := hr
          exact hC
        refine ⟨⟨u₁, u₂, u, hue, ?_⟩, ⟨r₁, r₂, r, hre, hused, ?_⟩⟩
        · simpa [reset_password, hotp, huser] using huu
        · simpa [reset_password, hotp, huser] using hru

/-- A concrete bcrypt stand-in used by witnesses. -/
def hashF : String → String := fun s => "H" ++ s

/-- An unused, unexpired OTP issued for `aliceUser`'s email. -/
def aliceOtp : OTPModel :=
  { id := 1, email := "a@x.com", otp := "123456", created_at := 0,
    expires_at := 900, is_used := false }

/-- State with two accounts and one live OTP for `aliceUser`. -/
def dbWithOtp : DB := { users := [aliceUser, bobUser], todos := [], otps := [aliceOtp] }

/-- C3 (witness): the success branch of the atomicity theorem at a concrete
valid reset request. -/
theorem C3_reset_atomic_witness :
    (∃ u₁ u₂ u, dbWithOtp.users = u₁ ++ u :: u₂ ∧
      (reset_password "a@x.com" "123456" "newpass123" hashF 10 dbWithOtp).2.users =
        u₁ ++ { u with hashed_password := hashF "newpass123",
                       updated_at := some 10 } :: u₂) ∧
    (∃ r₁ r₂ r, dbWithOtp.otps = r₁ ++ r :: r₂ ∧ r.is_used = false ∧
      (reset_password "a@x.com" "123456" "newpass123" hashF 10 dbWithOtp).2.otps =
        r₁ ++ { r with is_used := true } :: r₂) :=
  (C3_reset_atomic "a@x.com" "123456" "newpass123" hashF 10 dbWithOtp).2
    "Password reset successfully" rfl

/-! ### C5 — OTP consumption is single-use -/

/-- C5: for a valid `(email, code)` pair (a matching unused, unexpired row,
unique for its email per the delete-then-insert invariant) and a resolvable
user, the first `reset_password` succeeds and marks the row used, and a
second call with the same pair at any time `now₂ ≥ now` fails with 400
"Invalid or expired OTP" and makes no state change. -/
theorem C5_consume_single_use (email otp pw₁ pw₂ : String)
    (hashFn : String → String) (now now₂ : Nat) (db : DB) (r : OTPModel)
    (hfound : db.otps.find? (otpMatch email otp now) = some r)
    (huser : (db.users.find? (fun u => u.email == email)).isSome = true)
    (huniq : db.otps.countP (fun x => x.email == email) ≤ 1)
    (hle : now ≤ now₂) :
    (reset_password email otp pw₁ hashFn now db).1 =
      .ok "Password reset successfully" ∧
    reset_password email otp pw₂ hashFn now₂
        (reset_password email otp pw₁ hashFn now db).2 =
      (.error ⟨400, "Invalid or expired OTP"⟩,
       (reset_password email otp pw₁ hashFn now db).2) := by
  obtain ⟨u, hu⟩ := Option.isSome_iff_exists.mp huser
  have hstate : (reset_password email otp pw₁ hashFn now db).2.otps =
      updateFirst (otpMatch email otp now)
        (fun x => { x with is_used := true }) db.otps := by
    simp [reset_password, hfound, hu]
  have hcount : db.otps.countP (otpMatch email otp now) ≤ 1 := by
    refine le_trans (countP_le_countP _ _ _ ?_) huniq
    intro a _ ha
    simp [otpMatch] at ha
    simp [ha.1.1.1]
  have hqp : ∀ b, otpMatch email otp now₂ b = true →
      otpMatch email otp now b = true := by
    intro b hb
    simp [otpMatch] at hb ⊢
    exact ⟨hb.1, lt_of_le_of_lt hle hb.2⟩
  have hqf : ∀ b : OTPModel, otpMatch email otp now₂ { b with is_used := true } = false := by
    intro b
    simp [otpMatch]
  have hnone : (reset_password email otp pw₁ hashFn now db).2.otps.find?
      (otpMatch email otp now₂) = none := by
    rw [hstate]
    exact find?_updateFirst_none _ _ _ db.otps r hfound hcount hqp hqf
  constructor
  · simp [reset_password, hfound, hu]
  · generalize hdb₁ : (reset_password email otp pw₁ hashFn now db).2 = db₁ at hnone ⊢
    simp [reset_password, hnone]

/-- C5 (witness): the single-use theorem at the concrete live OTP. -/
theorem C5_consume_single_use_witness :
    (reset_password "a@x.com" "123456" "newpass123" hashF 10 dbWithOtp).1 =
      .ok "Password reset successfully" ∧
    reset_password "a@x.com" "123456" "newpass456" hashF 11
        (reset_password "a@x.com" "123456" "newpass123" hashF 10 dbWithOtp).2 =
      (.error ⟨400, "Invalid or expired OTP"⟩,
       (reset_password "a@x.com" "123456" "newpass123" hashF 10 dbWithOtp).2) :=
  C5_consume_single_use "a@x.com" "123456" "newpass123" "newpass456" hashF 10 11
    dbWithOtp aliceOtp (by decide) (by decide) (by decide) (by decide)

/-! ### C4 — issuing a new OTP invalidates the previous one -/

theorem forgot_password_users (email newOtp : String) (newId now : Nat) (db : DB) :
    (forgot_password email newOtp newId now db).2.users = db.users := by
  cases h : db.users.find? (fun u => u.email == email) <;>
    simp [forgot_password, h]

theorem forgot_password_otps (email newOtp : String) (newId now : Nat)
    (db : DB) (u : User)
    (hu : db.users.find? (fun x => x.email == email) = some u) :
    (forgot_password email newOtp newId now db).2.otps =
      db.otps.filter (fun r => !(r.email == email)) ++
        [⟨newId, email, newOtp, now, now + 15 * 60, false⟩] := by
  simp [forgot_password, hu]

/-- C4: when the email resolves to a user, issuing deletes every stored
code for that email before inserting the fresh row: afterwards the rows
for that email are exactly the new one (so at most one active code exists
per email), and `check` — the query of `verify_otp` — fails for any code
other than the fresh one, at any time.  Applied with `db` the state left
by a previous issue, this is exactly: after a second issue, `check` on the
first code returns false. -/
theorem C4_issue_invalidates (email oldCode newOtp : String) (newId now : Nat)
    (db : DB) (u : User)
    (hreg : db.users.find? (fun x => x.email == email) = some u) :
    (forgot_password email newOtp newId now db).2.otps.filter
        (fun r => r.email == email) =
      [⟨newId, email, newOtp, now, now + 15 * 60, false⟩] ∧
    (forgot_password email newOtp newId now db).2.otps.countP
        (fun r => r.email == email) ≤ 1 ∧
    (oldCode ≠ newOtp → ∀ tnow,
      (verify_otp email oldCode tnow (forgot_password email newOtp newId now db).2).1 =
        .error ⟨400, "Invalid or expired OTP"⟩) := by
  have hotps := forgot_password_otps email newOtp newId now db u hreg
  have hfilter : (forgot_password email newOtp newId now db).2.otps.filter
      (fun r => r.email == email) =
      [⟨newId, email, newOtp, now, now + 15 * 60, false⟩] := by
    rw [hotps, List.filter_append, List.filter_filter]
    simp
  refine ⟨hfilter, ?_, ?_⟩
  · rw [List.countP_eq_length_filter, hfilter]
    simp
  · intro hne tnow
    have hnone : (forgot_password email newOtp newId now db).2.otps.find?
        (otpMatch email oldCode tnow) = none := by
      rw [hotps]
      refine List.find?_eq_none.mpr ?_
      intro r hr hmatch
      rcases List.mem_append.mp hr with hl | hnew
      · have hne' := (List.mem_filter.mp hl).2
        simp at hne'
        simp [otpMatch, hne'] at hmatch
      · simp at hnew
        subst hnew
        simp [otpMatch] at hmatch
        exact hne hmatch.1.symm
    simp [verify_otp, hnone]

/-- C4 (witness): a fresh issue for `aliceUser`'s email wipes the earlier
code "123456", leaves exactly the new row, and the old code no longer
checks. -/
theorem C4_issue_invalidates_witness :
    (forgot_password "a@x.com" "654321" 2 20 dbWithOtp).2.otps.filter
        (fun r => r.email == "a@x.com") =
      [⟨2, "a@x.com", "654321", 20, 20 + 15 * 60, false⟩] ∧
    (verify_otp "a@x.com" "123456" 21 (forgot_password "a@x.com" "654321" 2 20 dbWithOtp).2).1 =
      .error ⟨400, "Invalid or expired OTP"⟩ := by
  have h := C4_issue_invalidates "a@x.com" "123456" "654321" 2 20 dbWithOtp
    aliceUser (by decide)
  exact ⟨h.1, h.2.2 (by decide) 21⟩

/-! ### C6 — verify-otp is pure -/

/-- C6: `verify_otp` makes no state change: one call returns the state
unchanged, any number `N` of calls leaves it unchanged, a later
`reset_password` behaves exactly as on the original state, and with a
valid code and resolvable user it still succeeds after the `N` checks. -/
theorem C6_check_pure (email otp : String) (now : Nat) (db : DB) (N : Nat) :
    (verify_otp email otp now db).2 = db ∧
    verifyN email otp now db N = db ∧
    (∀ pw hashFn now₂,
      reset_password email otp pw hashFn now₂ (verifyN email otp now db N) =
        reset_password email otp pw hashFn now₂ db) ∧
    (∀ r pw hashFn, db.otps.find? (otpMatch email otp now) = some r →
      (db.users.find? (fun x => x.email == email)).isSome = true →
      (reset_password email otp pw hashFn now (verifyN email otp now db N)).1 =
        .ok "Password reset successfully") := by
  have hN : verifyN email otp now db N = db := by
    induction N with
    | zero => rfl
    | succ n ih => exact ih
  refine ⟨rfl, hN, fun pw hashFn now₂ => by rw [hN], ?_⟩
  intro r pw hashFn hfound huser
  obtain ⟨u, hu⟩ := Option.isSome_iff_exists.mp huser
  rw [hN]
  simp [reset_password, hfound, hu]

/-- C6 (witness): 3 checks of the live code change nothing and the reset
still succeeds. -/
theorem C6_check_pure_witness :
    verifyN "a@x.com" "123456" 10 dbWithOtp 3 = dbWithOtp ∧
    (reset_password "a@x.com" "123456" "newpass123" hashF 10
        (verifyN "a@x.com" "123456" 10 dbWithOtp 3)).1 =
      .ok "Password reset successfully" := by
  have h := C6_check_pure "a@x.com" "123456" 10 dbWithOtp 3
  exact ⟨h.2.1, h.2.2.2 aliceOtp "newpass123" hashF (by decide) (by decide)⟩

/-! ### C7 — forgot-password is anti-enumeration -/

/-- C7: the `forgot_password` response message is the same fixed string on
every state — in particular identical for registered and unregistered
emails — and the handler's return type admits no failure (every request
gets the 200 body).  For an unregistered email the state is unchanged (no
OTP row is created); for a registered one the fresh OTP row is present
afterwards. -/
theorem C7_forgot_anti_enumeration (email newOtp : String) (newId now : Nat)
    (db db₂ : DB) :
    (forgot_password email newOtp newId now db).1 =
      (forgot_password email newOtp newId now db₂).1 ∧
    (forgot_password email newOtp newId now db).1 = forgotMessage ∧
    (db.users.find? (fun x => x.email == email) = none →
      (forgot_password email newOtp newId now db).2 = db) ∧
    (∀ u, db.users.find? (fun x => x.email == email) = some u →
      (⟨newId, email, newOtp, now, now + 15 * 60, false⟩ : OTPModel) ∈
        (forgot_password email newOtp newId now db).2.otps) := by
  have hmsg : ∀ d : DB, (forgot_password email newOtp newId now d).1 = forgotMessage := by
    intro d
    cases h : d.users.find? (fun u => u.email == email) <;>
      simp [forgot_password, h]
  refine ⟨(hmsg db).trans (hmsg db₂).symm, hmsg db, ?_, ?_⟩
  · intro hnone
    simp [forgot_password, hnone]
  · intro u hu
    rw [forgot_password_otps email newOtp newId now db u hu]
    simp

/-- C7 (witness): same message for a registered and an unregistered email;
no row created in the unregistered case, row created in the registered
case. -/
theorem C7_forgot_anti_enumeration_witness :
    (forgot_password "a@x.com" "654321" 2 20 dbTwoUsers).1 =
      (forgot_password "a@x.com" "654321" 2 20 dbInactive).1 ∧
    (forgot_password "a@x.com" "654321" 2 20 dbInactive).2 = dbInactive ∧
    (⟨2, "a@x.com", "654321", 20, 20 + 15 * 60, false⟩ : OTPModel) ∈
      (forgot_password "a@x.com" "654321" 2 20 dbTwoUsers).2.otps := by
  have h := C7_forgot_anti_enumeration "a@x.com" "654321" 2 20 dbTwoUsers dbInactive
  have h₂ := C7_forgot_anti_enumeration "a@x.com" "654321" 2 20 dbInactive dbTwoUsers
  exact ⟨h.1, h₂.2.2.1 (by decide), h.2.2.2 aliceUser (by decide)⟩

/-! ### C8 — registration conflicts and hash-free response -/

/-- C8: registration rejects with 400 "Email already registered" whenever
the email is taken (regardless of the username, so the email check comes
first); otherwise with 400 "Username already taken" when the username is
taken; with both free, an `IntegrityError` on the insert is translated to
the fixed 400 "Registration failed due to database error" (never a raw
storage error) with no state change; and a successful insert persists the
user with `hashFn`-hashed password and answers with the `UserResponse`
projection, a record type with no password field. -/
theorem C8_register_conflicts (user : UserCreate) (hashFn : String → String)
    (newId now : Nat) (insertOk : Bool) (db : DB) :
    ((∃ u ∈ db.users, u.email = user.email) →
      register_user user hashFn newId now insertOk db =
        (.error ⟨400, "Email already registered"⟩, db)) ∧
    ((∀ u ∈ db.users, u.email ≠ user.email) →
      (∃ u ∈ db.users, u.username = user.username) →
      register_user user hashFn newId now insertOk db =
        (.error ⟨400, "Username already taken"⟩, db)) ∧
    ((∀ u ∈ db.users, u.email ≠ user.email ∧ u.username ≠ user.username) →
      insertOk = false →
      register_user user hashFn newId now insertOk db =
        (.error ⟨400, "Registration failed due to database error"⟩, db)) ∧
    ((∀ u ∈ db.users, u.email ≠ user.email ∧ u.username ≠ user.username) →
      insertOk = true →
      register_user user hashFn newId now insertOk db =
        (.ok ⟨newId, user.email, user.username, true, now⟩,
         { db with users := db.users ++
             [⟨newId, user.email, user.username, hashFn user.password,
               true, now, none⟩] })) := by
  refine ⟨?_, ?_, ?_, ?_⟩
  · intro ⟨u, hu, he⟩
    have hsome : (db.users.find? (fun x => x.email == user.email)).isSome := by
      refine List.find?_isSome.mpr ⟨u, hu, ?_⟩
      simp [he]
    obtain ⟨w, hw⟩ := Option.isSome_iff_exists.mp hsome
    simp [register_user, hw]
  · intro hemail ⟨u, hu, hn⟩
    have henone : db.users.find? (fun x => x.email == user.email) = none := by
      refine List.find?_eq_none.mpr ?_
      intro x hx hm
      exact hemail x hx (by simpa using hm)
    have hsome : (db.users.find? (fun x => x.username == user.username)).isSome := by
      refine List.find?_isSome.mpr ⟨u, hu, ?_⟩
      simp [hn]
    obtain ⟨w, hw⟩ := Option.isSome_iff_exists.mp hsome
    simp [register_user, henone, hw]
  · intro hfree hbad
    have henone : db.users.find? (fun x => x.email == user.email) = none := by
      refine List.find?_eq_none.mpr ?_
      intro x hx hm
      exact (hfree x hx).1 (by simpa using hm)
    have hunone : db.users.find? (fun x => x.username == user.username) = none := by
      refine List.find?_eq_none.mpr ?_
      intro x hx hm
      exact (hfree x hx).2 (by simpa using hm)
    subst hbad
    simp [register_user, henone, hunone]
  · intro hfree hok
    have henone : db.users.find? (fun x => x.email == user.email) = none := by
      refine List.find?_eq_none.mpr ?_
      intro x hx hm
      exact (hfree x hx).1 (by simpa using hm)
    have hunone : db.users.find? (fun x => x.username == user.username) = none := by
      refine List.find?_eq_none.mpr ?_
      intro x hx hm
      exact (hfree x hx).2 (by simpa using hm)
    subst hok
    simp [register_user, henone, hunone, toUserResponse]

/-- C8 (witness): the four branches at concrete inputs over `dbTwoUsers`. -/
theorem C8_register_conflicts_witness :
    register_user ⟨"a@x.com", "newname", "password1"⟩ hashF 5 30 true dbTwoUsers =
      (.error ⟨400, "Email already registered"⟩, dbTwoUsers) ∧
    register_user ⟨"d@x.com", "alice", "password1"⟩ hashF 5 30 true dbTwoUsers =
      (.error ⟨400, "Username already taken"⟩, dbTwoUsers) ∧
    register_user ⟨"d@x.com", "dave", "password1"⟩ hashF 5 30 false dbTwoUsers =
      (.error ⟨400, "Registration failed due to database error"⟩, dbTwoUsers) ∧
    register_user ⟨"d@x.com", "dave", "password1"⟩ hashF 5 30 true dbTwoUsers =
      (.ok ⟨5, "d@x.com", "dave", true, 30⟩,
       { dbTwoUsers with users := dbTwoUsers.users ++
           [⟨5, "d@x.com", "dave", hashF "password1", true, 30, none⟩] }) := by
  have h1 := C8_register_conflicts ⟨"a@x.com", "newname", "password1"⟩ hashF 5 30 true dbTwoUsers
  have h2 := C8_register_conflicts ⟨"d@x.com", "alice", "password1"⟩ hashF 5 30 true dbTwoUsers
  have h3 := C8_register_conflicts ⟨"d@x.com", "dave", "password1"⟩ hashF 5 30 false dbTwoUsers
  have h4 := C8_register_conflicts ⟨"d@x.com", "dave", "password1"⟩ hashF 5 30 true dbTwoUsers
  exact ⟨h1.1 ⟨aliceUser, by decide, by decide⟩,
         h2.2.1 (by decide) ⟨aliceUser, by decide, by decide⟩,
         h3.2.2.1 (by decide) rfl,
         h4.2.2.2 (by decide) rfl⟩

/-! ### C10 — partial update touches only its own fields -/

/-- C10: `update_todo` can change only `title`, `description` and
`completed` (plus the `onupdate` timestamp), and only the fields present
in the request body are overwritten; the `id`, `user_id` and `created_at`
columns are unchanged across the whole table, so an update can never
reassign a task to another user; on a miss the state is untouched. -/
theorem C10_update_frame (todo_id : Nat) (u : TodoUpdate) (cu : User)
    (now : Nat) (db : DB) :
    (update_todo todo_id u cu now db).2.users = db.users ∧
    (update_todo todo_id u cu now db).2.otps = db.otps ∧
    (∀ e, (update_todo todo_id u cu now db).1 = .error e →
      (update_todo todo_id u cu now db).2 = db) ∧
    (∀ t', (update_todo todo_id u cu now db).1 = .ok t' →
      ∃ t, db.todos.find? (ownedMatch todo_id cu) = some t ∧
        t' = { applyTodoUpdate u t with updated_at := some now } ∧
        t'.id = t.id ∧ t'.user_id = t.user_id ∧ t'.created_at = t.created_at ∧
        t'.title = u.title.getD t.title ∧
        t'.description = u.description.getD t.description ∧
        t'.completed = u.completed.getD t.completed) ∧
    (update_todo todo_id u cu now db).2.todos.map Todo.id =
      db.todos.map Todo.id ∧
    (update_todo todo_id u cu now db).2.todos.map Todo.user_id =
      db.todos.map Todo.user_id ∧
    (update_todo todo_id u cu now db).2.todos.map Todo.created_at =
      db.todos.map Todo.created_at := by
  cases hfind : db.todos.find? (ownedMatch todo_id cu) with
  | none =>
    refine ⟨by simp [update_todo, hfind], by simp [update_todo, hfind],
            fun e _ => by simp [update_todo, hfind], ?_, ?_, ?_, ?_⟩
    · intro t' ht'
      simp [update_todo, hfind] at ht'
    · simp [update_todo, hfind]
    · simp [update_todo, hfind]
    · simp [update_todo, hfind]
  | some t =>
    have hmap : ∀ (g : Todo → Nat), (∀ a : Todo,
        g { applyTodoUpdate u a with updated_at := some now } = g a) →
        (updateFirst (ownedMatch todo_id cu)
          (fun a => { applyTodoUpdate u a with updated_at := some now })
          db.todos).map g = db.todos.map g := by
      intro g hg
      exact map_updateFirst _ _ g hg db.todos
    refine ⟨by simp [update_todo, hfind], by simp [update_todo, hfind],
            ?_, ?_, ?_, ?_, ?_⟩
    · intro e he
      simp [update_todo, hfind] at he
    · intro t' ht'
      simp [update_todo, hfind] at ht'
      subst ht'
      exact ⟨t, rfl, rfl, rfl, rfl, rfl, rfl, rfl, rfl⟩
    · simpa [update_todo, hfind] using hmap Todo.id (fun a => rfl)
    · simpa [update_todo, hfind] using hmap Todo.user_id (fun a => rfl)
    · simpa [update_todo, hfind] using hmap Todo.created_at (fun a => rfl)

/-- C10 (witness): a partial update of the title by the owner keeps id,
owner and creation timestamp. -/
theorem C10_update_frame_witness :
    (update_todo 1 ⟨some "buy oat milk", none, none⟩ aliceUser 8 dbTwoUsers).2.todos.map
        Todo.user_id = dbTwoUsers.todos.map Todo.user_id ∧
    (∃ t, dbTwoUsers.todos.find? (ownedMatch 1 aliceUser) = some t ∧
      ({ applyTodoUpdate ⟨some "buy oat milk", none, none⟩ milkTodo with
           updated_at := some 8 } : Todo) =
        { applyTodoUpdate ⟨some "buy oat milk", none, none⟩ t with
            updated_at := some 8 } ∧
      ({ applyTodoUpdate ⟨some "buy oat milk", none, none⟩ milkTodo with
           updated_at := some 8 } : Todo).id = t.id ∧
      ({ applyTodoUpdate ⟨some "buy oat milk", none, none⟩ milkTodo with
           updated_at := some 8 } : Todo).user_id = t.user_id ∧
      ({ applyTodoUpdate ⟨some "buy oat milk", none, none⟩ milkTodo with
           updated_at := some 8 } : Todo).created_at = t.created_at ∧
      ({ applyTodoUpdate ⟨some "buy oat milk", none, none⟩ milkTodo with
           updated_at := some 8 } : Todo).title =
        (some "buy oat milk").getD t.title ∧
      ({ applyTodoUpdate ⟨some "buy oat milk", none, none⟩ milkTodo with
           updated_at := some 8 } : Todo).description =
        (none : Option (Option String)).getD t.description ∧
      ({ applyTodoUpdate ⟨some "buy oat milk", none, none⟩ milkTodo with
           updated_at := some 8 } : Todo).completed =
        (none : Option Bool).getD t.completed) := by
  have h := C10_update_frame 1 ⟨some "buy oat milk", none, none⟩ aliceUser 8 dbTwoUsers
  exact ⟨h.2.2.2.2.2.1, h.2.2.2.1 _ rfl⟩

end TodoApi
